import Mathlib

/-!
Verification of the go-godin/log leveled structured logging facade.

The package has two variants of the facade in the sources:
 * the tracing variant (`Log` with a zipkin span field, `With`, `WithTrace`,
   `SetLevel`, and an error-returning `evaluateLogLevel`), modelled at top
   level below, together with the package-level shared instance `std`;
 * the plain variant (`log.go`: `Log` with only the kit logger and a
   non-error `evaluateLogLevel`), modelled in namespace `Plain`.

The go-kit `log` / `level` collaborators are modelled by `KitLogger`:
a logger is either the base JSON writer, a level filter wrapping an inner
logger (`level.NewFilter`), or a context carrying accumulated key-values
(`log.With` / `log.WithPrefix`).  A `Log` call on the chain yields the
record that reaches the base writer, or `none` when the filter drops it.
-/

/-- Severity of a log record, ordered Debug < Info < Warning < Error.
Mirrors the go-kit level values used through `level.Debug/Info/Warn/Error`. -/
inductive Severity where
  | debug
  | info
  | warning
  | error
deriving DecidableEq, Repr

/-- Numeric rank of a severity, used for the total order. -/
def Severity.toNat : Severity → Nat
  | .debug => 0
  | .info => 1
  | .warning => 2
  | .error => 3

/-- A go-kit `level.Option` as produced by `level.AllowAll/AllowDebug/AllowInfo/
AllowWarn/AllowError`. `allowAll` and `allowDebug` admit the same records
(go-kit defines `AllowAll` as `AllowDebug`) but are distinct constructor
values, so the resolver's choice between them is observable. -/
inductive LevelOption where
  | allowAll
  | allowDebug
  | allowInfo
  | allowWarn
  | allowError
deriving DecidableEq, Repr

/-- Minimal severity admitted by a `level.Option`. -/
def LevelOption.minSev : LevelOption → Severity
  | .allowAll => .debug
  | .allowDebug => .debug
  | .allowInfo => .info
  | .allowWarn => .warning
  | .allowError => .error

/-- A filter configured with option `o` forwards a record of severity `s`
iff `s` is at least the option's minimal severity (go-kit's upward-closed
`Allow*` bitmasks). -/
def LevelOption.allows (o : LevelOption) (s : Severity) : Bool :=
  o.minSev.toNat ≤ s.toNat

/-- One element of a variadic `...interface{}` key-value sequence.
`lvl` is a go-kit `level.Value` (the payload the level filter recognises at
value positions) and `levelKey` is go-kit's interned level key; `arr` is a
`[]interface{}` slice boxed as a single element, which arises when a slice
is passed to a variadic call without being spread. -/
inductive Val where
  | s (string : String)
  | i (int : Int)
  | b (bool : Bool)
  | lvl (sev : Severity)
  | levelKey
  | arr (elems : List Val)

/-- String form of a severity, as rendered by go-kit level values. -/
def Severity.render : Severity → String
  | .debug => "debug"
  | .info => "info"
  | .warning => "warn"
  | .error => "error"

/-- Model of `fmt.Sprint` on a single element, as used by trace tagging. -/
def Val.sprint : Val → String
  | .s str => str
  | .i n => toString n
  | .b bo => toString bo
  | .lvl sev => sev.render
  | .levelKey => "level"
  | .arr _ => "[...]"

/-- The two-element key-value prefix `level.Debug/...` prepends:
go-kit's level key followed by the severity's level value. -/
def levelKVs (s : Severity) : List Val :=
  [Val.levelKey, Val.lvl s]

/-- Model of the go-kit logger chain: the base JSON writer on stdout,
`level.NewFilter(next, opt)` (the new filter wraps `next`), and a go-kit
context holding accumulated key-values in front of each record. -/
inductive KitLogger where
  | json
  | filter (opt : LevelOption) (next : KitLogger)
  | ctx (kvs : List Val) (next : KitLogger)

/-- Scan a record's value positions (odd indices) for the first go-kit
level value, as the go-kit filter does; the scan stops at the first hit
and never inspects an unpaired trailing element. -/
def findLevel : List Val → Option Severity
  | _ :: Val.lvl s :: _ => some s
  | _ :: _ :: rest => findLevel rest
  | _ => none

/-- Run a `Log` call through the chain: the result is the record that
reaches the base JSON writer, or `none` when a level filter drops it.
A filter forwards records carrying no level value (go-kit's default,
no `SquelchNoLevel`). -/
def KitLogger.log : KitLogger → List Val → Option (List Val)
  | .json, kvs => some kvs
  | .filter opt next, kvs =>
      match findLevel kvs with
      | some s => if opt.allows s then next.log kvs else none
      | none => next.log kvs
  | .ctx pre next, kvs => next.log (pre ++ kvs)

/-- Model of go-kit `log.With(l, kvs...)`: merge into an existing context
by appending after its key-values, otherwise open a new context. -/
def kitWith : KitLogger → List Val → KitLogger
  | .ctx kvs next, new => .ctx (kvs ++ new) next
  | l, new => .ctx new l

/-- Model of go-kit `log.WithPrefix(l, kvs...)` (used by `level.Debug`
etc.): merge into an existing context by prepending before its
key-values, otherwise open a new context. -/
def kitPrepend : KitLogger → List Val → KitLogger
  | .ctx kvs next, new => .ctx (new ++ kvs) next
  | l, new => .ctx new l

/-- An opaque zipkin span identity. -/
structure Span where
  id : Nat
deriving DecidableEq, Repr

/-- One side effect performed on the bound span by trace enrichment. -/
inductive TraceOp where
  | annotate (message : String)
  | tag (key value : String)

/-- The tracing-variant `Log` struct: a kit logger and an optional
zipkin span (`nil` span modelled as `none`). -/
structure Log where
  kitLogger : KitLogger
  span : Option Span

/-- Recognised level name constants and the reserved message key. -/
def LevelDebug : String := "debug"

def LevelInfo : String := "info"

def LevelWarning : String := "warning"

def LevelError : String := "error"

def MessageKey : String := "message"

def EnvironmentVariable : String := "LOG_LEVEL"

/-- Lower-case one character, modelling the ASCII case of Go's
`unicode.ToLower` simple mapping. -/
def lowerChar (c : Char) : Char :=
  if 65 ≤ c.toNat ∧ c.toNat ≤ 90 then Char.ofNat (c.toNat + 32) else c

/-- Model of Go's `strings.ToLower` on the ASCII range: lower-case each
character of the string. -/
def toLowerGo (s : String) : String :=
  String.mk (s.data.map lowerChar)

/-- The tracing variant's `evaluateLogLevel`: lower-case the name, map the
four recognised names to their filter options with no error, and fall back
to `AllowAll` plus a non-nil error otherwise. -/
def evaluateLogLevel (logLevel : String) : LevelOption × Option String :=
  let lower := toLowerGo logLevel
  if lower = LevelDebug then (.allowDebug, none)
  else if lower = LevelInfo then (.allowInfo, none)
  else if lower = LevelWarning then (.allowWarn, none)
  else if lower = LevelError then (.allowError, none)
  else (.allowAll, some "no log-level passed, falling back to debug")

/-- `NewLogger`: build the JSON writer, wrap it in a filter from the
resolved option, and return the handle with no span bound.  When the
resolver reported an error the constructor additionally logs a warning
through the new handle; that call does not change the returned value. -/
def NewLogger (logLevel : String) : Log :=
  let levelOpt := (evaluateLogLevel logLevel).1
  { kitLogger := .filter levelOpt .json, span := none }

/-- `NewLoggerFromEnv`: read `LOG_LEVEL` and delegate to `NewLogger`.
The environment is passed explicitly; `os.Getenv` yields `""` when the
variable is unset. -/
def NewLoggerFromEnv (envLogLevel : String) : Log :=
  NewLogger envLogLevel

/-- The shared package-level instance: `var std = NewLogger("info")`. -/
def std : Log :=
  NewLogger "info"

/-- The local state the body of `SetLevel` builds in its copy of the
receiver: re-resolve the option, fall back to `AllowInfo` on error, and
wrap the existing kit logger in a further filter. -/
def Log.setLevelLocal (l : Log) (logLevel : String) : Log :=
  let resolved := evaluateLogLevel logLevel
  let lvl := match resolved.2 with
    | some _ => LevelOption.allowInfo
    | none => resolved.1
  { l with kitLogger := .filter lvl l.kitLogger }

/-- `SetLevel` in Go is declared on a value receiver and returns nothing:
the assignment to `l.kitLogger` lands in the method's copy of the struct
and is discarded, so the caller's handle after the call is the handle it
had before. This definition is that caller-observable result. -/
def Log.SetLevel (l : Log) (logLevel : String) : Log :=
  let _updated := l.setLevelLocal logLevel
  l

/-- The value of the shared instance after the package-level
`SetLevel(level)` call, which forwards to `std.SetLevel(level)`. -/
def SetLevelStd (logLevel : String) : Log :=
  Log.SetLevel std logLevel

/-- `WithTrace`: bind whatever span the context carries (or none) into a
new handle over the same kit logger; the parent is not mutated. -/
def Log.WithTrace (l : Log) (ctxSpan : Option Span) : Log :=
  match ctxSpan with
  | some span => { kitLogger := l.kitLogger, span := some span }
  | none => { kitLogger := l.kitLogger, span := none }

/-- `With`: with zero key-values return the receiver itself, otherwise a
new handle over `log.With(l.kitLogger, keyvals...)` carrying the same
span. -/
def Log.With (l : Log) (keyvals : List Val) : Log :=
  match keyvals with
  | [] => l
  | _ => { kitLogger := kitWith l.kitLogger keyvals, span := l.span }

/-- Tag the span once per complete (key, value) pair, in order, stopping
before an unpaired trailing element (the `i+1 >= len` break). -/
def tagPairs : List Val → List TraceOp
  | k :: v :: rest => TraceOp.tag k.sprint v.sprint :: tagPairs rest
  | _ => []

/-- `handleTrace`: with no span bound do nothing; otherwise annotate with
the message when it is non-empty, then tag each complete pair. -/
def Log.handleTrace (l : Log) (message : String) (keyvals : List Val) : List TraceOp :=
  match l.span with
  | none => []
  | some _ =>
      (if message ≠ "" then [TraceOp.annotate message] else []) ++ tagPairs keyvals

/-- `mergeKeyValues`: prepend the (`"message"`, message) pair when the
message is non-empty, then pass the key-values through unchanged. -/
def Log.mergeKeyValues (_l : Log) (message : String) (keyvals : List Val) : List Val :=
  let levelData : List Val :=
    if message ≠ "" then [Val.s MessageKey, Val.s message] else []
  levelData ++ keyvals

/-- Observable effect of one facade call: the span operations performed,
the key-value sequence submitted to the (filter-configured) sink, and the
record reaching the base JSON writer (`none` when filtered out). -/
structure CallEffect where
  trace : List TraceOp
  submitted : List Val
  emitted : Option (List Val)

/-- The `Debug` method: no trace enrichment; the merged record is logged
through `level.Debug(l.kitLogger)`. -/
def Log.Debug (l : Log) (message : String) (keyvals : List Val) : CallEffect :=
  { trace := []
    submitted := l.mergeKeyValues message keyvals
    emitted := (kitPrepend l.kitLogger (levelKVs .debug)).log (l.mergeKeyValues message keyvals) }

/-- The `Info` method: enrich the span, then log the merged record
through `level.Info(l.kitLogger)`. -/
def Log.Info (l : Log) (message : String) (keyvals : List Val) : CallEffect :=
  { trace := l.handleTrace message keyvals
    submitted := l.mergeKeyValues message keyvals
    emitted := (kitPrepend l.kitLogger (levelKVs .info)).log (l.mergeKeyValues message keyvals) }

/-- The `Warning` method: enrich the span, then log the merged record
through `level.Warn(l.kitLogger)`. -/
def Log.Warning (l : Log) (message : String) (keyvals : List Val) : CallEffect :=
  { trace := l.handleTrace message keyvals
    submitted := l.mergeKeyValues message keyvals
    emitted := (kitPrepend l.kitLogger (levelKVs .warning)).log (l.mergeKeyValues message keyvals) }

/-- The `Error` method: enrich the span, then log the merged record
through `level.Error(l.kitLogger)`. -/
def Log.Error (l : Log) (message : String) (keyvals : List Val) : CallEffect :=
  { trace := l.handleTrace message keyvals
    submitted := l.mergeKeyValues message keyvals
    emitted := (kitPrepend l.kitLogger (levelKVs .error)).log (l.mergeKeyValues message keyvals) }

/-- Dispatch a severity method by severity value; `Debug` is the one
method that skips trace enrichment. -/
def Log.logAt (l : Log) (sev : Severity) (message : String) (keyvals : List Val) : CallEffect :=
  match sev with
  | .debug => l.Debug message keyvals
  | .info => l.Info message keyvals
  | .warning => l.Warning message keyvals
  | .error => l.Error message keyvals

/-- The `Log` method: best-effort enrichment with an empty message, then
the key-values handed to the kit logger chain as given, with no severity
wrapper and no message pair. -/
def Log.Log (l : Log) (keyvals : List Val) : CallEffect :=
  { trace := l.handleTrace "" keyvals
    submitted := keyvals
    emitted := l.kitLogger.log keyvals }

namespace Plain

/-- The plain variant's `Log` struct (`log.go`): only the kit logger. -/
structure Log where
  kitLogger : KitLogger

/-- The plain variant's `evaluateLogLevel`: same mapping, no error
channel; unrecognised names silently fall back to `AllowAll`. -/
def evaluateLogLevel (logLevel : String) : LevelOption :=
  let lower := toLowerGo logLevel
  if lower = LevelDebug then .allowDebug
  else if lower = LevelInfo then .allowInfo
  else if lower = LevelWarning then .allowWarn
  else if lower = LevelError then .allowError
  else .allowAll

/-- The plain variant's `NewLogger`. -/
def NewLogger (logLevel : String) : Log :=
  { kitLogger := .filter (evaluateLogLevel logLevel) .json }

/-- The plain variant's `Log` method calls `l.kitLogger.Log(keyvals)`
without spreading the variadic slice, so the kit logger receives a single
element that boxes the whole slice rather than the flat sequence. -/
def Log.LogCall (l : Log) (keyvals : List Val) : List Val × Option (List Val) :=
  ([Val.arr keyvals], l.kitLogger.log [Val.arr keyvals])

end Plain

/-- Bound fields of a handle: the key-values its kit-logger context has
accumulated in front of every record. -/
def boundFields : KitLogger → List Val
  | .ctx kvs _ => kvs
  | _ => []

/-- C1: the claim says `SetLevel(name)` replaces the handle's effective
filter so that subsequent calls (including through the shared instance)
are gated by the new filter. The code declares `SetLevel` on a value
receiver, so the assignment to `kitLogger` lands in a discarded copy:
the handle after `SetLevel "error"` equals the handle before, a `Debug`
call on a debug-level logger still emits, and the package-level
`SetLevel` leaves `std` unchanged. Moreover the method body wraps a
further filter around the existing one instead of replacing it, so even
its local copy cannot lower the threshold. -/
theorem setLevel_value_receiver_discards_update :
    (((NewLogger "debug").SetLevel "error") = NewLogger "debug")
  ∧ ((((NewLogger "debug").SetLevel "error").Debug "x" []).emitted
      = some (levelKVs .debug ++ [Val.s "message", Val.s "x"]))
  ∧ (SetLevelStd "error" = std)
  ∧ ((((NewLogger "error").setLevelLocal "debug").Debug "x" []).emitted = none) := by
  exact ⟨rfl, rfl, rfl, rfl⟩

/-- C2 counterexample: the claim says the process-wide default logger,
with `LOG_LEVEL` unset, allows every severity from Debug up; but `std`
is constructed as `NewLogger("info")`, so a `Debug` call through it
reaches no sink. -/
theorem std_debug_suppressed : (std.Debug "x" []).emitted = none := rfl

/-- C2 amended: the process-wide default logger is constructed with the
fixed level name "info", independent of `LOG_LEVEL`; it rejects Debug
and accepts Info, Warning and Error. The separate `NewLoggerFromEnv`
constructor is the one resolving the environment-provided name, and with
`LOG_LEVEL` unset (empty name) it accepts every severity. -/
theorem std_fixed_info_level :
    (std = NewLogger "info")
  ∧ ((std.Debug "x" []).emitted = none)
  ∧ ((std.Info "x" []).emitted.isSome = true)
  ∧ ((std.Warning "x" []).emitted.isSome = true)
  ∧ ((std.Error "x" []).emitted.isSome = true)
  ∧ (∀ envName, NewLoggerFromEnv envName = NewLogger envName)
  ∧ (∀ sev : Severity, ((NewLoggerFromEnv "").logAt sev "x" []).emitted.isSome = true) := by
  refine ⟨rfl, rfl, rfl, rfl, rfl, fun _ => rfl, ?_⟩
  intro sev
  cases sev <;> rfl

/-- C3: the claim says `Log(pairs...)` submits exactly the given pairs as
an ordered flat sequence. The tracing variant does (third conjunct), but
the plain variant (`log.go`) passes the `keyvals` slice to the kit logger
without spreading it, so the sink receives a single element boxing the
whole slice instead of the flat two-element sequence. -/
theorem plain_log_boxes_keyvals :
    (((Plain.NewLogger "debug").LogCall [Val.s "foo", Val.s "bar"]).1
      = [Val.arr [Val.s "foo", Val.s "bar"]])
  ∧ (((Plain.NewLogger "debug").LogCall [Val.s "foo", Val.s "bar"]).1
      ≠ [Val.s "foo", Val.s "bar"])
  ∧ (∀ (l : Log) (keyvals : List Val), (l.Log keyvals).submitted = keyvals) := by
  refine ⟨rfl, ?_, fun _ _ => rfl⟩
  intro h
  have hlen := congrArg List.length h
  simp [Plain.Log.LogCall] at hlen

/-- C4: on every case variant of "debug", "info", "warning" or "error"
the resolver returns the matching minimum-severity option and no error;
on every other string (the empty string included) it returns the
`AllowAll` option together with a non-nil error. -/
theorem evaluateLogLevel_resolution (s : String) :
    (toLowerGo s = "debug" → evaluateLogLevel s = (.allowDebug, none))
  ∧ (toLowerGo s = "info" → evaluateLogLevel s = (.allowInfo, none))
  ∧ (toLowerGo s = "warning" → evaluateLogLevel s = (.allowWarn, none))
  ∧ (toLowerGo s = "error" → evaluateLogLevel s = (.allowError, none))
  ∧ (toLowerGo s ∉ (["debug", "info", "warning", "error"] : List String) →
      evaluateLogLevel s = (.allowAll, some "no log-level passed, falling back to debug")) := by
  refine ⟨?_, ?_, ?_, ?_, ?_⟩ <;> intro h
  · simp [evaluateLogLevel, LevelDebug, h]
  · simp [evaluateLogLevel, LevelDebug, LevelInfo, h]
  · simp [evaluateLogLevel, LevelDebug, LevelInfo, LevelWarning, h]
  · simp [evaluateLogLevel, LevelDebug, LevelInfo, LevelWarning, LevelError, h]
  · simp only [List.mem_cons, List.mem_singleton, not_or] at h
    obtain ⟨h1, h2, h3, h4⟩ := h
    simp [evaluateLogLevel, LevelDebug, LevelInfo, LevelWarning, LevelError, h1, h2, h3, h4]

/-- C4 witness: a mixed-case recognised name resolves with no error and
the empty string falls back to allow-all with an error. -/
theorem evaluateLogLevel_resolution_witness :
    evaluateLogLevel "WaRnInG" = (.allowWarn, none)
  ∧ evaluateLogLevel "" = (.allowAll, some "no log-level passed, falling back to debug") :=
  ⟨(evaluateLogLevel_resolution "WaRnInG").2.2.1 (by decide),
   (evaluateLogLevel_resolution "").2.2.2.2 (by decide)⟩

/-- C5: with a non-empty message, `mergeKeyValues` yields the pair
("message", message) followed by the key-values unchanged and in order;
with an empty message it yields exactly the key-values. -/
theorem mergeKeyValues_spec (l : Log) (message : String) (keyvals : List Val) :
    (message ≠ "" → l.mergeKeyValues message keyvals
      = Val.s "message" :: Val.s message :: keyvals)
  ∧ (message = "" → l.mergeKeyValues message keyvals = keyvals) := by
  constructor <;> intro h <;> simp [Log.mergeKeyValues, MessageKey, h]

/-- C5 witness: merging the message "m" in front of one key. -/
theorem mergeKeyValues_spec_witness :
    (NewLogger "info").mergeKeyValues "m" [Val.s "k"]
      = Val.s "message" :: Val.s "m" :: [Val.s "k"] :=
  (mergeKeyValues_spec (NewLogger "info") "m" [Val.s "k"]).1 (by decide)

/-- C6: on a handle built by `NewLogger` (with any bound fields), a call
at severity `sev` reaches the base writer iff `sev` is at least the
minimum severity of the filter resolved from the constructor's level
name; concretely, on a "warning" logger `Info "hello"` emits nothing
while `Error "bad" ("code", 500)` emits, submitting exactly the pairs
("message","bad"),("code",500) to the sink. -/
theorem severity_filtering_invariant (name message : String)
    (bound keyvals : List Val) (sev : Severity) :
    (((((NewLogger name).With bound).logAt sev message keyvals).emitted.isSome = true)
      ↔ (evaluateLogLevel name).1.minSev.toNat ≤ sev.toNat)
  ∧ (((NewLogger "warning").Info "hello" []).emitted = none)
  ∧ (((NewLogger "warning").Error "bad" [Val.s "code", Val.i 500]).emitted.isSome = true)
  ∧ (((NewLogger "warning").Error "bad" [Val.s "code", Val.i 500]).submitted
      = [Val.s "message", Val.s "bad", Val.s "code", Val.i 500]) := by
  refine ⟨?_, rfl, rfl, rfl⟩
  cases bound with
  | nil =>
      cases sev <;>
        simp [NewLogger, Log.With, Log.logAt, Log.Debug, Log.Info, Log.Warning, Log.Error,
          kitPrepend, KitLogger.log, levelKVs, findLevel, LevelOption.allows] <;>
        split <;> simp_all
  | cons x xs =>
      cases sev <;>
        simp [NewLogger, Log.With, Log.logAt, Log.Debug, Log.Info, Log.Warning, Log.Error,
          kitWith, kitPrepend, KitLogger.log, levelKVs, findLevel, LevelOption.allows] <;>
        split <;> simp_all

/-- C6 witness: an error-severity call passes a "warning" filter. -/
theorem severity_filtering_invariant_witness :
    ((((NewLogger "warning").With []).logAt .error "bad" []).emitted.isSome = true) :=
  (severity_filtering_invariant "warning" "bad" [] [] .error).1.mpr (by decide)

/-- C7: `With` with zero key-values returns the receiver itself, and
chained derivations accumulate bound fields in derivation order, so
`With [a,b]` then `With [c,d]` binds fields [a,b,c,d]. -/
theorem with_accumulates_fields (l : Log) (a b c d : Val) :
    (l.With [] = l)
  ∧ (boundFields (((l.With [a, b]).With [c, d]).kitLogger)
      = boundFields l.kitLogger ++ [a, b, c, d])
  ∧ ((((NewLogger "info").With [a, b]).With [c, d]).kitLogger
      = KitLogger.ctx [a, b, c, d] (.filter .allowInfo .json)) := by
  refine ⟨rfl, ?_, rfl⟩
  cases hk : l.kitLogger <;> simp [Log.With, hk, kitWith, boundFields]

/-- Tagging skips nothing while pairs are complete: appending one element
to an even-length sequence leaves the produced tags unchanged. -/
theorem tagPairs_even_append : ∀ (xs : List Val) (t : Val), xs.length % 2 = 0 →
    tagPairs (xs ++ [t]) = tagPairs xs
  | [], _, _ => rfl
  | [_], _, h => by simp at h
  | a :: b :: rest, t, h => by
      have hr : rest.length % 2 = 0 := by
        simp only [List.length_cons] at h
        omega
      simp [tagPairs, tagPairs_even_append rest t hr]

/-- C8: an odd-length key-value sequence (an even-length part plus one
trailing element) is still submitted in full to the sink, while trace
tagging on a span-bound handle tags exactly the complete pairs and skips
the unpaired trailing element; concretely `Info "m" ("onlykey")` submits
("message","m"),"onlykey", emits, and only annotates, tagging nothing. -/
theorem odd_trailing_element (l : Log) (sp : Span) (message : String)
    (xs : List Val) (t : Val)
    (hspan : l.span = some sp) (hmsg : message ≠ "") (heven : xs.length % 2 = 0) :
    ((l.Info message (xs ++ [t])).submitted
      = Val.s "message" :: Val.s message :: (xs ++ [t]))
  ∧ ((l.Info message (xs ++ [t])).trace = TraceOp.annotate message :: tagPairs xs)
  ∧ ((((NewLogger "info").WithTrace (some sp)).Info "m" [Val.s "onlykey"]).submitted
      = [Val.s "message", Val.s "m", Val.s "onlykey"])
  ∧ ((((NewLogger "info").WithTrace (some sp)).Info "m" [Val.s "onlykey"]).emitted.isSome
      = true)
  ∧ ((((NewLogger "info").WithTrace (some sp)).Info "m" [Val.s "onlykey"]).trace
      = [TraceOp.annotate "m"]) := by
  refine ⟨?_, ?_, rfl, rfl, ?_⟩
  · simp [Log.Info, Log.mergeKeyValues, MessageKey, hmsg]
  · simp [Log.Info, Log.handleTrace, hspan, hmsg, tagPairs_even_append xs t heven]
  · simp [Log.Info, Log.handleTrace, NewLogger, Log.WithTrace, tagPairs]

/-- C8 witness: the odd-pair scenario instantiated on a span-bound
info-level logger. -/
theorem odd_trailing_element_witness :
    (((NewLogger "info").WithTrace (some ⟨7⟩)).Info "m" ([] ++ [Val.s "onlykey"])).submitted
      = Val.s "message" :: Val.s "m" :: ([] ++ [Val.s "onlykey"]) :=
  (odd_trailing_element ((NewLogger "info").WithTrace (some ⟨7⟩)) ⟨7⟩ "m" [] (Val.s "onlykey")
    rfl (by decide) rfl).1

/-- C9: with no span bound, trace enrichment performs no annotate and no
tag operations; and for every pair of span states the record submitted
to and emitted by the sink is identical, so enrichment never prevents
emission. -/
theorem trace_enrichment_no_span_noop (k : KitLogger) (sp1 sp2 : Option Span)
    (message : String) (keyvals : List Val) :
    ((Log.mk k none).handleTrace message keyvals = [])
  ∧ ((Log.mk k sp1).Info message keyvals).emitted = ((Log.mk k sp2).Info message keyvals).emitted
  ∧ ((Log.mk k sp1).Info message keyvals).submitted
      = ((Log.mk k sp2).Info message keyvals).submitted
  ∧ ((Log.mk k sp1).Warning message keyvals).emitted
      = ((Log.mk k sp2).Warning message keyvals).emitted
  ∧ ((Log.mk k sp1).Error message keyvals).emitted
      = ((Log.mk k sp2).Error message keyvals).emitted
  ∧ ((Log.mk k sp1).Log keyvals).emitted = ((Log.mk k sp2).Log keyvals).emitted := by
  exact ⟨rfl, rfl, rfl, rfl, rfl, rfl⟩

/-- C10: deriving a handle through `With` with a non-empty key-value
sequence preserves the bound trace span. -/
theorem with_preserves_trace_span (l : Log) (keyvals : List Val) (h : keyvals ≠ []) :
    (l.With keyvals).span = l.span := by
  cases keyvals with
  | nil => exact absurd rfl h
  | cons x xs => simp [Log.With]

/-- C10 witness: binding one field preserves the (empty) span of a fresh
logger. -/
theorem with_preserves_trace_span_witness :
    ((NewLogger "info").With [Val.s "a"]).span = (NewLogger "info").span :=
  with_preserves_trace_span (NewLogger "info") [Val.s "a"] (by simp)
